import Mathlib

/-!
Formal verification of the differentiable computation-graph engine of
`mlstatpy` (`src/mlstatpy/ml/neural_tree.py`).

The development is a shallow embedding of the module:

* the activation catalog (`NeuralTreeNode.get_activation_function`,
  `NeuralTreeNode.get_activation_gradient_function`) is modelled over `ℝ`,
  since the sigmoid / softmax families are transcendental;
* the graph layer (`NeuralTreeNode`, `NeuralTreeNet`, `append`, `clear`,
  `training_weights`, `update_training_weights`, `predict`,
  `_get_output_node_attr`, `__eq__`, the tree compiler `create_from_tree`
  and the generic `_TrainingAPI.gradient`) is modelled over `ℚ` so that
  concrete runs are decidable; activation kinds whose forward function is
  a rational map (identity, relu, leakyrelu) are executable there, the
  transcendental kinds are carried around as tags (the structural claims
  never evaluate them).

Stateful Python methods are modelled as explicit state-passing functions;
Python exceptions are modelled with `Except String` / `Option` (error
message texts are kept short, their exact formatting is not load-bearing).
Python `dict`s are modelled as association lists with `setAssoc` /
`lookupAssoc` (assignment overwrites, lookup may fail like `KeyError`);
where the source aliases node objects shared between the node list and the
lookup dicts, the embedding stores the node position instead, which is the
functional account of that aliasing (`append` assigns `nodeid = position`).
-/

/-! ### Real-valued activation catalog -/

noncomputable section

/-- Model of `scipy.special.expit`: the logistic function. -/
def expit (x : ℝ) : ℝ := 1 / (1 + Real.exp (-x))

/-- Model of `NeuralTreeNode._dsigmoid`: `y = expit(x); y * (1 - y)`. -/
def dsigmoid (x : ℝ) : ℝ := expit x * (1 - expit x)

/-- The forward function registered for kind `sigmoid4`:
`lambda x: expit(x * 4)` in `get_activation_function`. -/
def sigmoid4_fct (x : ℝ) : ℝ := expit (x * 4)

/-- The gradient function registered for kind `sigmoid4`:
`lambda x: NeuralTreeNode._dsigmoid(x) * 4` in
`get_activation_gradient_function`.  Note the argument is *not* rescaled. -/
def sigmoid4_grad (x : ℝ) : ℝ := dsigmoid x * 4

/-- Model of `NeuralTreeNode._relu` (vectorised elementwise by numpy). -/
def reluR (x : ℝ) : ℝ := if x > 0 then x else 0

/-- Model of `NeuralTreeNode._leakyrelu`. -/
def leakyreluR (x : ℝ) : ℝ := if x > 0 then x else x * 0.01

/-- Model of `NeuralTreeNode._drelu`. -/
def dreluR (x : ℝ) : ℝ := if x > 0 then 1 else 0

/-- Model of `NeuralTreeNode._dleakyrelu`. -/
def dleakyreluR (x : ℝ) : ℝ := if x > 0 then 1 else 0.01

/-- Model of `scipy.special.softmax` on a 1-D array. -/
def softmaxR (v : List ℝ) : List ℝ :=
  v.map (fun x => Real.exp x / (v.map Real.exp).sum)

/-- Model of `NeuralTreeNode._dsoftmax`: `diag(soft) - soft @ soft.T`. -/
def dsoftmaxR (v : List ℝ) : List (List ℝ) :=
  (List.range (softmaxR v).length).map (fun i =>
    (List.range (softmaxR v).length).map (fun j =>
      (if i = j then (softmaxR v).getD i 0 else 0) -
        (softmaxR v).getD i 0 * (softmaxR v).getD j 0))

/-- A value of the activation tables: the scalar activations are
elementwise real functions, softmax is a vector function and its gradient
a Jacobian matrix. -/
inductive PyFun where
  | scalar : (ℝ → ℝ) → PyFun
  | vector : (List ℝ → List ℝ) → PyFun
  | matrix : (List ℝ → List (List ℝ)) → PyFun

/-- Model of `NeuralTreeNode.get_activation_function`: the chain of `if`
tests of the source, ending in `ValueError` for an unknown kind. -/
def get_activation_function (activation : String) : Except String PyFun :=
  if activation = "softmax" then .ok (.vector softmaxR)
  else if activation = "softmax4" then .ok (.vector (fun v => softmaxR (v.map (· * 4))))
  else if activation = "logistic" ∨ activation = "expit" ∨ activation = "sigmoid" then
    .ok (.scalar expit)
  else if activation = "sigmoid4" then .ok (.scalar sigmoid4_fct)
  else if activation = "relu" then .ok (.scalar reluR)
  else if activation = "leakyrelu" then .ok (.scalar leakyreluR)
  else if activation = "identity" then .ok (.scalar (fun x => x))
  else .error ("Unknown activation function " ++ activation)

/-- Model of `NeuralTreeNode.get_activation_gradient_function`. -/
def get_activation_gradient_function (activation : String) : Except String PyFun :=
  if activation = "softmax" then .ok (.matrix dsoftmaxR)
  else if activation = "softmax4" then
    .ok (.matrix (fun v => (dsoftmaxR v).map (fun row => row.map (· * 4))))
  else if activation = "logistic" ∨ activation = "expit" ∨ activation = "sigmoid" then
    .ok (.scalar dsigmoid)
  else if activation = "sigmoid4" then .ok (.scalar sigmoid4_grad)
  else if activation = "relu" then .ok (.scalar dreluR)
  else if activation = "leakyrelu" then .ok (.scalar dleakyreluR)
  else if activation = "identity" then .ok (.scalar (fun _ => 1))
  else .error ("Unknown activation gradient function " ++ activation)

end

/-- The set of activation tags accepted by the source tables. -/
def recognized_activation (a : String) : Prop :=
  a ∈ ["softmax", "softmax4", "logistic", "expit", "sigmoid", "sigmoid4",
       "relu", "leakyrelu", "identity"]

instance (a : String) : Decidable (recognized_activation a) := by
  unfold recognized_activation; infer_instance

/-- Discriminates `Except.ok` results. -/
def exceptIsOk : Except ε α → Bool
  | .ok _ => true
  | .error _ => false

deriving instance DecidableEq for Except

/-! ### Rational graph layer: data model -/

/-- Coefficient storage of a unit: a 1-D array `[bias, w1, ..., wn]` for a
single-output unit or a 2-D array of such rows for a multi-output unit
(this mirrors the two accepted shapes of `NeuralTreeNode.__init__`). -/
inductive Coef where
  | one : List ℚ → Coef
  | two : List (List ℚ) → Coef
deriving DecidableEq, Repr

/-- Shape of the coefficient array, as the numpy `shape` tuple. -/
def coefShape : Coef → List Nat
  | .one l => [l.length]
  | .two rows => [rows.length, (rows.headD []).length]

/-- Number of scalar coefficients (`coef.size`). -/
def coefSize : Coef → Nat
  | .one l => l.length
  | .two rows => (rows.map List.length).sum

/-- Flattened coefficients (`coef.ravel()`). -/
def coefRavel : Coef → List ℚ
  | .one l => l
  | .two rows => rows.flatten

/-- Width of `input_weights` = number of inputs the unit expects:
`coef.shape[-1] - 1` (the column 0 of each row is the bias). -/
def inputWidth : Coef → Nat
  | .one l => l.length - 1
  | .two rows => (rows.headD []).length - 1

/-- Model of `NeuralTreeNode`.  `nodeid` is `-1` while unattached and the
position in the owning graph after `append`; `tag` is a provenance label. -/
structure NeuralTreeNode where
  coef : Coef
  activation : String
  nodeid : Int := -1
  tag : Option String := none
deriving DecidableEq, Repr

/-- The `NeuralTreeNode(weights, bias, activation, tag=...)` constructor for
1-D weights: stores `[bias] ++ weights`. -/
def mkNode1 (weights : List ℚ) (bias : ℚ) (activation : String)
    (tag : Option String) : NeuralTreeNode :=
  { coef := .one (bias :: weights), activation := activation, nodeid := -1, tag := tag }

/-- The constructor for 2-D weights: prepends the bias column; a 1-row 2-D
block is rejected (`RuntimeError: Unexpected unsqueezed weights shape`). -/
def mkNode2 (weights : List (List ℚ)) (bias : ℚ) (activation : String)
    (tag : Option String) : Except String NeuralTreeNode :=
  if weights.length = 1 then .error "Unexpected unsqueezed weights shape"
  else .ok { coef := .two (weights.map (fun row => bias :: row)),
             activation := activation, nodeid := -1, tag := tag }

/-- Output slot(s) of a unit inside a graph: one slot for a single-output
unit, a list of slots for a multi-output unit. -/
inductive Output where
  | single : Nat → Output
  | multi : List Nat → Output
deriving DecidableEq, Repr

/-- Placement metadata stored by the graph for each appended unit. -/
structure NodeAttr where
  inputs : List Nat
  output : Output
  coef_size : Nat
  first_coef : Nat
deriving DecidableEq, Repr

/-- Python `dict` as an association list: assignment `m[key] = v`. -/
def setAssoc {α : Type} : List (Int × α) → Int → α → List (Int × α)
  | [], key, v => [(key, v)]
  | (k, w) :: rest, key, v =>
      if k = key then (key, v) :: rest else (k, w) :: setAssoc rest key v

/-- Python `dict` lookup `m[key]`; `none` is a `KeyError`. -/
def lookupAssoc {α : Type} : List (Int × α) → Int → Option α
  | [], _ => none
  | (k, w) :: rest, key => if k = key then some w else lookupAssoc rest key

/-- Model of `NeuralTreeNet`.  `output_to_node_` and `input_to_node_` map a
global slot index to the *position* of the owning / consuming unit (the
source stores the `(node, attr)` objects themselves; positions are the
alias-free account, since `append` sets `nodeid` to the position). -/
structure NeuralTreeNet where
  dim : Nat
  nodes : List NeuralTreeNode
  nodes_attr : List NodeAttr
  size_ : Nat
  output_to_node_ : List (Int × Nat)
  input_to_node_ : List (Int × Nat)
deriving DecidableEq, Repr

/-- `NeuralTreeNet(dim, empty=True)` followed by `_update_members()`. -/
def mkEmpty (dim : Nat) : NeuralTreeNet :=
  { dim := dim, nodes := [], nodes_attr := [], size_ := dim,
    output_to_node_ := [], input_to_node_ := [] }

/-- Offset of the next unit inside the flattened weight vector:
`0` if no unit yet, else `last.first_coef + last.coef_size`. -/
def firstCoefNext (net : NeuralTreeNet) : Nat :=
  match net.nodes_attr.getLast? with
  | none => 0
  | some a => a.first_coef + a.coef_size

/-- Model of `NeuralTreeNet.append(node, inputs)`.

Returns the state of the graph after the call together with the raised
error, if any.  The source validates the input-slot count *before* any
mutation, so on failure the returned state is the unchanged input state.
On success the unit's `nodeid` is set to its position, its output slot(s)
are the next unused global slot(s), placement metadata is appended and the
slot lookup maps and `size_` are extended incrementally
(`_update_members(node, attr)`). -/
def NeuralTreeNet.append (net : NeuralTreeNet) (node : NeuralTreeNode)
    (inputs : List Nat) : NeuralTreeNet × Option String :=
  match node.coef with
  | .one l =>
      if l.length - 1 ≠ inputs.length then
        (net, some "Dimension mismatch between weights and inputs.")
      else
        let pos := net.nodes.length
        let node2 := { node with nodeid := (pos : Int) }
        let attr : NodeAttr :=
          { inputs := inputs, output := .single net.size_,
            coef_size := l.length, first_coef := firstCoefNext net }
        ({ dim := net.dim,
           nodes := net.nodes ++ [node2],
           nodes_attr := net.nodes_attr ++ [attr],
           size_ := net.size_ + 1,
           output_to_node_ := setAssoc net.output_to_node_ (net.size_ : Int) pos,
           input_to_node_ :=
             inputs.foldl (fun m i => setAssoc m (i : Int) pos) net.input_to_node_ },
         none)
  | .two rows =>
      if (rows.headD []).length - 1 ≠ inputs.length then
        (net, some "Dimension mismatch between weights and inputs.")
      else
        let pos := net.nodes.length
        let node2 := { node with nodeid := (pos : Int) }
        let nOut := rows.length
        let outs := List.range' net.size_ nOut
        let attr : NodeAttr :=
          { inputs := inputs, output := .multi outs,
            coef_size := (rows.map List.length).sum, first_coef := firstCoefNext net }
        ({ dim := net.dim,
           nodes := net.nodes ++ [node2],
           nodes_attr := net.nodes_attr ++ [attr],
           size_ := net.size_ + nOut,
           output_to_node_ :=
             outs.foldl (fun m o => setAssoc m (o : Int) pos) net.output_to_node_,
           input_to_node_ :=
             inputs.foldl (fun m i => setAssoc m (i : Int) pos) net.input_to_node_ },
         none)

/-- Model of `NeuralTreeNet.clear`: deletes all nodes and placement
metadata, then `_update_members()` recomputes `size_ = dim` and empties the
lookup maps. -/
def NeuralTreeNet.clear (net : NeuralTreeNet) : NeuralTreeNet :=
  { dim := net.dim, nodes := [], nodes_attr := [], size_ := net.dim,
    output_to_node_ := [], input_to_node_ := [] }

/-! ### Rational graph layer: weights -/

/-- Model of `NeuralTreeNet.shape[0]`: the total number of coefficients. -/
def netShape (net : NeuralTreeNet) : Nat :=
  (net.nodes.map (fun n => coefSize n.coef)).sum

/-- Model of `NeuralTreeNet.training_weights`: the source allocates a
buffer of length `shape[0]` and fills the consecutive slices
`pos : pos + n.coef.size` with each unit's ravelled coefficients, i.e. the
concatenation in append order. -/
def NeuralTreeNet.training_weights (net : NeuralTreeNet) : List ℚ :=
  (net.nodes.map (fun n => coefRavel n.coef)).flatten

/-- Splits a flat vector into chunks of the given lengths
(the inverse of `ravel` for a 2-D array). -/
def splitByLengths : List ℚ → List Nat → List (List ℚ)
  | _, [] => []
  | xs, n :: ns => xs.take n :: splitByLengths (xs.drop n) ns

/-- Model of `numpy.copyto(coef, xs.reshape(coef.shape))`: a reshape of a
vector of the wrong length raises. -/
def updateCoefReplace (c : Coef) (xs : List ℚ) : Option Coef :=
  match c with
  | .one l => if xs.length = l.length then some (.one xs) else none
  | .two rows =>
      if xs.length = (rows.map List.length).sum then
        some (.two (splitByLengths xs (rows.map List.length)))
      else none

/-- Model of `coef += xs.reshape(coef.shape)`. -/
def updateCoefAdd (c : Coef) (xs : List ℚ) : Option Coef :=
  match c with
  | .one l => if xs.length = l.length then some (.one (l.zipWith (· + ·) xs)) else none
  | .two rows =>
      if xs.length = (rows.map List.length).sum then
        some (.two (rows.zipWith (fun row xr => row.zipWith (· + ·) xr)
          (splitByLengths xs (rows.map List.length))))
      else none

/-- The per-node loop of `NeuralTreeNet.update_training_weights`: each unit
consumes the slice `X[pos : pos + n.coef.size]`; a too-short tail fails the
reshape, leftover entries past the final `pos` are ignored (as in the
source). -/
def updateNodes : List NeuralTreeNode → List ℚ → Bool → Option (List NeuralTreeNode)
  | [], _, _ => some []
  | n :: ns, xs, add => do
      let c ← (if add then updateCoefAdd else updateCoefReplace)
        n.coef (xs.take (coefSize n.coef))
      let rest ← updateNodes ns (xs.drop (coefSize n.coef)) add
      some ({ n with coef := c } :: rest)

/-- Model of `NeuralTreeNet.update_training_weights(X, add)`. -/
def NeuralTreeNet.update_training_weights (net : NeuralTreeNet) (xs : List ℚ)
    (add : Bool) : Option NeuralTreeNet :=
  (updateNodes net.nodes xs add).map (fun ns => { net with nodes := ns })

/-! ### Rational graph layer: forward evaluation -/

/-- The activation catalog restricted to the kinds whose forward function
is a rational map (identity; relu and leakyrelu, vectorised elementwise as
`numpy.vectorize` does).  The sigmoid / softmax families are transcendental
and live in the real-valued catalog above (`expit`, `softmaxR`); network
runs proved below only evaluate rational kinds, the transcendental tags are
carried around structurally. -/
def get_activation_function_q (activation : String) : Option (List ℚ → List ℚ) :=
  if activation = "identity" then some (fun v => v)
  else if activation = "relu" then some (List.map (fun x => if x > 0 then x else 0))
  else if activation = "leakyrelu" then
    some (List.map (fun x => if x > 0 then x else x * 0.01))
  else none

/-- Dot product of two equal-length rational vectors. -/
def dot (a b : List ℚ) : ℚ := ((a.zip b).map (fun p => p.1 * p.2)).sum

/-- Model of `NeuralTreeNode.predict` on a single sample (1-D input):
`activation(X @ coef[1:] + coef[0])` for a single-output unit, the row-wise
affine map followed by the activation for a multi-output unit; a dimension
mismatch in the matrix product raises. -/
def NeuralTreeNode.predict (n : NeuralTreeNode) (X : List ℚ) : Option (List ℚ) :=
  match n.coef with
  | .one [] => none
  | .one (b :: w) =>
      if X.length = w.length then
        (get_activation_function_q n.activation).map (fun f => f [dot X w + b])
      else none
  | .two rows =>
      if X.length = (rows.headD []).length - 1 then
        (get_activation_function_q n.activation).map
          (fun f => f (rows.map (fun row => dot X row.tail + row.headD 0)))
      else none

/-- Sequentially sets `res[j] := v` for paired slots and values. -/
def setManySlots : List ℚ → List Nat → List ℚ → List ℚ
  | res, j :: js, v :: vs => setManySlots (res.set j v) js vs
  | res, _, _ => res

/-- Writes a unit's output value(s) into its designated slot(s) of the
state buffer (`res[attr['output']] = node.predict(...)`); out-of-range
slots raise `IndexError`. -/
def writeOutput (res : List ℚ) (o : Output) (y : List ℚ) : Option (List ℚ) :=
  match o, y with
  | .single j, [v] => if j < res.length then some (res.set j v) else none
  | .single _, _ => none
  | .multi js, vs =>
      if js.length = vs.length ∧ ∀ j ∈ js, j < res.length then
        some (setManySlots res js vs)
      else none

/-- The traversal of `NeuralTreeNet._predict_one`: evaluates every unit in
append order (`zip(self.nodes, self.nodes_attr)`), gathering each unit's
inputs from the state buffer (`res[attr['inputs']]`, `IndexError` on an
out-of-range slot) and writing its output into its slot(s). -/
def predictOneGo : List NeuralTreeNode → List NodeAttr → List ℚ → Option (List ℚ)
  | [], _, res => some res
  | _ :: _, [], res => some res
  | n :: ns, a :: attrs, res => do
      let xin ← a.inputs.mapM (fun j => res[j]?)
      let y ← n.predict xin
      let res2 ← writeOutput res a.output y
      predictOneGo ns attrs res2

/-- Model of `NeuralTreeNet._predict_one(X)`: allocates a `size_`-length
zero buffer, seeds slots `0 .. dim-1` with the sample (numpy requires the
sample length to match), and runs the units in append order. -/
def NeuralTreeNet.predict_one (net : NeuralTreeNet) (X : List ℚ) : Option (List ℚ) :=
  if X.length = net.dim then
    predictOneGo net.nodes net.nodes_attr (X ++ List.replicate (net.size_ - net.dim) 0)
  else none

/-! ### Rational graph layer: output-node resolution (`_get_output_node_attr`) -/

/-- Converts an `Option` to an `Except` with the given error message. -/
def exceptOfOption (o : Option α) (msg : String) : Except String α :=
  match o with
  | some a => .ok a
  | none => .error msg

/-- Python `range(a, b)` over integers. -/
def intRange (a b : Int) : List Int :=
  (List.range (b - a).toNat).map (fun j => a + (j : Int))

/-- Python list indexing with negative-index wraparound. -/
def pyGet (l : List α) (i : Int) : Option α :=
  if 0 ≤ i then l[i.toNat]?
  else if (-i).toNat ≤ l.length then l[l.length - (-i).toNat]? else none

/-- Model of `NeuralTreeNet._get_output_node_attr(nb_last)`, exactly as the
source computes it: for `i` in `range(len(nodes) - nb_last, len(nodes))` it
looks up `output_to_node_[nodes[i].nodeid]` — i.e. it keys the *slot*-indexed
map with a *node identifier* — collects the owners' ids into a set, raises
unless the set is a singleton, and finally returns
`output_to_node_[len(nodes) - 1]`. -/
def NeuralTreeNet.get_output_node_attr (net : NeuralTreeNet) (nbLast : Nat) :
    Except String (NeuralTreeNode × NodeAttr) := do
  let n : Int := net.nodes.length
  let ids ← (intRange (n - nbLast) n).mapM (fun i => do
    let node ← exceptOfOption (pyGet net.nodes i) "IndexError: nodes"
    let j ← exceptOfOption (lookupAssoc net.output_to_node_ node.nodeid)
      "KeyError: output_to_node_"
    let nd ← exceptOfOption net.nodes[j]? "IndexError: nodes"
    pure nd.nodeid)
  let neurones := ids.dedup
  if neurones.length ≠ 1 then .error "Only one output node is implemented"
  else do
    let j ← exceptOfOption (lookupAssoc net.output_to_node_ (n - 1))
      "KeyError: output_to_node_"
    let nd ← exceptOfOption net.nodes[j]? "IndexError: nodes"
    let a ← exceptOfOption net.nodes_attr[j]? "IndexError: nodes_attr"
    pure (nd, a)

/-! ### Structural equality of units (`NeuralTreeNode.__eq__`) -/

/-- Python truth-testing of a numpy boolean array (`bool(arr)`): defined
for a size-1 array, `False` for an empty one, and a `ValueError` for a
larger one ("the truth value of an array with more than one element is
ambiguous"). -/
def pyBoolOfArray (l : List Bool) : Except String Bool :=
  match l with
  | [b] => .ok b
  | [] => .ok false
  | _ => .error "ValueError: ambiguous truth value of an array"

/-- The sequence of truth values consumed by
`any(map(lambda xy: xy[0] != xy[1], zip(self.coef, obj.coef)))`: iterating
a 1-D array yields scalars (whose inequality is a plain boolean) while
iterating a 2-D array yields rows (whose elementwise inequality is a
boolean array that must go through numpy truth-testing). -/
def coefNeTests : Coef → Coef → List (Except String Bool)
  | .one l1, .one l2 =>
      (l1.zip l2).map (fun p => .ok (decide (p.1 ≠ p.2)))
  | .two r1, .two r2 =>
      (r1.zip r2).map (fun p =>
        pyBoolOfArray ((p.1.zip p.2).map (fun q => decide (q.1 ≠ q.2))))
  | _, _ => []

/-- Short-circuiting `any` over lazily produced truth values. -/
def anyExcept : List (Except String Bool) → Except String Bool
  | [] => .ok false
  | e :: rest => do
      let b ← e
      if b then pure true else anyExcept rest

/-- Model of `NeuralTreeNode.__eq__`: shape check, elementwise coefficient
comparison through `any(map(...))`, then activation comparison; the node
identifier and the tag are not consulted. -/
def NeuralTreeNode.eq (a b : NeuralTreeNode) : Except String Bool :=
  if coefShape a.coef ≠ coefShape b.coef then .ok false
  else do
    let ne ← anyExcept (coefNeTests a.coef b.coef)
    if ne then pure false
    else if a.activation ≠ b.activation then pure false
    else pure true

/-! ### The generic training API (`_TrainingAPI.gradient`) -/

/-- A 1-D or 2-D numpy array argument. -/
inductive Arr where
  | vec : List ℚ → Arr
  | mat : List (List ℚ) → Arr
deriving DecidableEq, Repr

/-- The `_TrainingAPI` capability record: the methods a trainable (a single
unit or a whole network) overrides; `gradient` below is dispatched through
it exactly as Python's dynamic dispatch does. -/
structure TrainingAPI (κ γ : Type) where
  fill_cache : Arr → Option κ
  dlossds : Arr → Arr → Option κ → γ
  dlossdw : Arr → Arr → Option κ → γ
  gradient_backward : γ → γ → Arr → Bool → Option κ → γ

/-- Model of `_TrainingAPI.gradient(X, y, inputs)`: raises unless `X` has
rank 1, otherwise composes `fill_cache`, `dlossds`, `dlossdw` and
`gradient_backward`. -/
def TrainingAPI.gradient {κ γ : Type} (api : TrainingAPI κ γ) (X : Arr) (y : Arr)
    (inputs : Bool) : Except String γ :=
  match X with
  | .mat _ => .error "X must a vector of one dimension."
  | .vec _ =>
      let cache := api.fill_cache X
      let ds := api.dlossds X y cache
      let dw := api.dlossdw X y cache
      .ok (api.gradient_backward ds dw X inputs cache)

/-! ### The tree compiler (`NeuralTreeNet.create_from_tree`) -/

/-- The decision-tree source contract consumed by the compiler: index
arrays of the scikit-learn tree, with `value` already reshaped to `(-1, 2)`
(one pair of class-vote counts per node). -/
structure TreeSource where
  n_classes : Nat
  node_count : Nat
  children_left : List Int
  children_right : List Int
  feature : List Nat
  threshold : List ℚ
  value : List (ℚ × ℚ)
  max_features : Nat
deriving DecidableEq, Repr

/-- The loop state of `create_from_tree`: the network under construction,
the predecessor map (tree node id ↦ position of the registered network
unit) and the per-class leaf buckets. -/
structure CompilerState where
  root : NeuralTreeNet
  predecessor : List (Int × Nat)
  outputs : List (Int × List Nat)
deriving DecidableEq, Repr

/-- `append` wrapped as an `Except` (the raised error propagates). -/
def appendE (net : NeuralTreeNet) (node : NeuralTreeNode) (inputs : List Nat) :
    Except String NeuralTreeNet :=
  match net.append node inputs with
  | (net2, none) => .ok net2
  | (_, some e) => .error e

/-- Extracts the single output slot of an attribute (the source reads
`attr['output']` and passes it as an input slot; the predecessor and
threshold units are always single-output). -/
def singleOutputSlot : Output → Except String Nat
  | .single o => .ok o
  | .multi _ => .error "TypeError: output is a list"

/-- The body of the `for i in range(n_nodes)` loop of `create_from_tree`.

For an internal node (`children_left[i] != children_right[i]`) it appends a
sigmoid-steepened threshold unit on the full feature range; then, if `i`
has a recorded predecessor, two 2-input sigmoid-steepened combination
units on `[attr1['output'], attr2['output']]` — weights `[k, k]`, bias
`-k * 1.5` (registered as predecessor of the left child) and weights
`[k, -k]`, bias `-k * 0.25` (registered as predecessor of the right
child) — otherwise an identity negation unit (weight `-1`, bias `1`) from
the threshold output, registering the threshold unit and the negation unit
as the children's predecessors.  At a leaf with a recorded predecessor the
predecessor is recorded under the leaf's majority-class bucket. -/
def processNode (tree : TreeSource) (k : ℚ) (st : CompilerState) (i : Nat) :
    Except String CompilerState := do
  let l ← exceptOfOption tree.children_left[i]? "IndexError: children_left"
  let r ← exceptOfOption tree.children_right[i]? "IndexError: children_right"
  if l ≠ r then do
    let f ← exceptOfOption tree.feature[i]? "IndexError: feature"
    let th ← exceptOfOption tree.threshold[i]? "IndexError: threshold"
    let nodeTh := mkNode1
      ((List.range tree.max_features).map (fun j => if j = f then -k else 0))
      (k * th) "sigmoid4" (some ("N" ++ toString i ++ "-th"))
    let root1 ← appendE st.root nodeTh (List.range tree.max_features)
    match lookupAssoc st.predecessor (i : Int) with
    | some predIdx => do
        let attr1 ← exceptOfOption root1.nodes_attr[predIdx]? "IndexError: nodes_attr"
        let attr2 ← exceptOfOption root1.nodes_attr[st.root.nodes.length]?
          "IndexError: nodes_attr"
        let o1 ← singleOutputSlot attr1.output
        let o2 ← singleOutputSlot attr2.output
        let nodeTrue := mkNode1 [k, k] (-(k * 1.5)) "sigmoid4"
          (some ("N" ++ toString i ++ "-T"))
        let root2 ← appendE root1 nodeTrue [o1, o2]
        let nodeFalse := mkNode1 [k, -k] (-(k * 0.25)) "sigmoid4"
          (some ("N" ++ toString i ++ "-F"))
        let root3 ← appendE root2 nodeFalse [o1, o2]
        pure { root := root3,
               predecessor :=
                 setAssoc (setAssoc st.predecessor l root1.nodes.length)
                   r root2.nodes.length,
               outputs := st.outputs }
    | none => do
        let attr ← exceptOfOption root1.nodes_attr[st.root.nodes.length]?
          "IndexError: nodes_attr"
        let o ← singleOutputSlot attr.output
        let nodeFalse := mkNode1 [-1] 1 "identity" (some ("N" ++ toString i ++ "-F"))
        let root2 ← appendE root1 nodeFalse [o]
        pure { root := root2,
               predecessor :=
                 setAssoc (setAssoc st.predecessor l st.root.nodes.length)
                   r root1.nodes.length,
               outputs := st.outputs }
  else
    match lookupAssoc st.predecessor (i : Int) with
    | some p => do
        let v ← exceptOfOption tree.value[i]? "IndexError: value"
        let cls : Int := if v.2 > v.1 then 1 else 0
        let bucket ← exceptOfOption (lookupAssoc st.outputs cls) "KeyError: outputs"
        pure { st with outputs := setAssoc st.outputs cls (bucket ++ [p]) }
    | none => pure st

/-- Model of `NeuralTreeNet.create_from_tree(tree, k)`: rejects more than
two classes, runs `processNode` over all tree nodes, then appends the final
multi-output softmax-steepened aggregation unit whose block-diagonal weight
matrix has `k` inside each class block and bias `-k / 2`, taking every
recorded leaf-predecessor output slot (grouped by class) as inputs. -/
def createFromTree (tree : TreeSource) (k : ℚ) : Except String NeuralTreeNet := do
  if tree.n_classes > 2 then
    .error "The function only support binary classification problem."
  else do
    let st0 : CompilerState :=
      { root := mkEmpty tree.max_features, predecessor := [],
        outputs := (List.range tree.n_classes).map (fun c => ((c : Int), [])) }
    let st ← (List.range tree.node_count).foldlM (fun s i => processNode tree k s i) st0
    let perClass ← (List.range tree.n_classes).mapM
      (fun c => exceptOfOption (lookupAssoc st.outputs (c : Int)) "KeyError: outputs")
    let outputNodes := perClass.flatten
    let nb := perClass.map List.length
    let total := outputNodes.length
    let rows := (List.range tree.n_classes).map (fun c =>
      (List.range total).map (fun j =>
        if (nb.take c).sum ≤ j ∧ j < (nb.take (c + 1)).sum then k else 0))
    let finalNode ← mkNode2 rows (-(k / 2)) "softmax4" (some "Nfinal")
    let feat ← outputNodes.mapM (fun nidx => do
      let a ← exceptOfOption st.root.nodes_attr[nidx]? "IndexError: nodes_attr"
      singleOutputSlot a.output)
    appendE st.root finalNode feat

/-! ### Concrete networks used by the theorems -/

/-- A 2-input identity passthrough unit with weights `[1, 1]` and bias `0`. -/
def demoIdentityNode : NeuralTreeNode := mkNode1 [1, 1] 0 "identity" none

/-- The network of the end-to-end scenario: a 2-dimensional input and the
identity unit appended on the two input slots. -/
def demoNet2 : NeuralTreeNet := ((mkEmpty 2).append demoIdentityNode [0, 1]).1

/-- A 1-dimensional network with two chained single-output identity units:
unit 0 reads slot 0 and writes slot 1, unit 1 reads slot 1 and writes
slot 2 (the final output slot). -/
def chainNet : NeuralTreeNet :=
  ((((mkEmpty 1).append (mkNode1 [1] 0 "identity" none) [0]).1).append
    (mkNode1 [1] 0 "identity" none) [1]).1

/-- A multi-output unit (2 outputs, 1 input) used to probe `__eq__`. -/
def multiNode : NeuralTreeNode :=
  { coef := .two [[0, 1], [0, 2]], activation := "softmax4", nodeid := -1, tag := none }

/-! ### Supporting lemmas: the logistic function -/

lemma one_add_exp_pos (x : ℝ) : 0 < 1 + Real.exp (-x) := by positivity

lemma expit_hasDerivAt (x : ℝ) : HasDerivAt expit (dsigmoid x) x := by
  have h0 : (1 : ℝ) + Real.exp (-x) ≠ 0 := ne_of_gt (one_add_exp_pos x)
  have h1 : HasDerivAt (fun y : ℝ => Real.exp (-y)) (Real.exp (-x) * (-1)) x :=
    (Real.hasDerivAt_exp (-x)).comp x (hasDerivAt_neg x)
  have h2 : HasDerivAt (fun y : ℝ => 1 + Real.exp (-y)) (Real.exp (-x) * (-1)) x :=
    h1.const_add 1
  have h3 := h2.inv h0
  have heq : expit = fun y : ℝ => (1 + Real.exp (-y))⁻¹ := by
    funext y; simp [expit, one_div]
  rw [heq]
  convert h3 using 1
  simp only [dsigmoid, expit]
  field_simp
  ring

lemma expit_strict_mono {a b : ℝ} (h : a < b) : expit a < expit b := by
  have ha := one_add_exp_pos a
  have hb := one_add_exp_pos b
  have hexp : Real.exp (-b) < Real.exp (-a) := Real.exp_lt_exp.mpr (by linarith)
  simp only [expit]
  rw [div_lt_div_iff₀ ha hb]
  linarith

lemma half_lt_expit {x : ℝ} (h : 0 < x) : 1 / 2 < expit x := by
  have hx := one_add_exp_pos x
  have hexp : Real.exp (-x) < 1 := by
    have := Real.exp_lt_one_iff.mpr (show -x < 0 by linarith)
    exact this
  simp only [expit]
  rw [div_lt_div_iff₀ (by norm_num : (0:ℝ) < 2) hx]
  linarith

lemma expit_lt_one (x : ℝ) : expit x < 1 := by
  have hx := one_add_exp_pos x
  have := Real.exp_pos (-x)
  simp only [expit]
  rw [div_lt_one hx]
  linarith

lemma dsigmoid_one_ne_dsigmoid_four : dsigmoid 1 ≠ dsigmoid 4 := by
  have h1 := half_lt_expit (show (0:ℝ) < 1 by norm_num)
  have h4 := half_lt_expit (show (0:ℝ) < 4 by norm_num)
  have hlt := expit_strict_mono (show (1:ℝ) < 4 by norm_num)
  have ho1 := expit_lt_one 1
  have ho4 := expit_lt_one 4
  simp only [dsigmoid]
  intro heq
  nlinarith [mul_pos (sub_pos.mpr hlt)
    (show (0:ℝ) < expit 1 + expit 4 - 1 by linarith)]

lemma sigmoid4_fct_hasDerivAt (x : ℝ) :
    HasDerivAt sigmoid4_fct (dsigmoid (x * 4) * 4) x := by
  have h1 : HasDerivAt (fun y : ℝ => y * 4) 4 x := by
    simpa using (hasDerivAt_id x).mul_const 4
  have h2 := (expit_hasDerivAt (x * 4)).comp x h1
  simpa [sigmoid4_fct, Function.comp] using h2

/-- C1: the claim states that for every activation kind the registered
derivative equals the mathematical derivative of the registered forward
function; in particular that the `sigmoid4` derivative equals
`d/dx logistic(4x) = 4 logistic(4x) (1 - logistic(4x))`.  The code violates
this: the registered forward for `sigmoid4` is `logistic(4x)`, whose
derivative at `x = 1` is `4 logistic(4) (1 - logistic(4))`
(first conjunct), but the registered gradient `_dsigmoid(x) * 4` evaluated
at `x = 1` is `4 logistic(1) (1 - logistic(1))`, a different number
(second conjunct): the scale factor multiplies the value but the argument
is never rescaled. -/
theorem sigmoid4_registered_gradient_is_wrong :
    HasDerivAt sigmoid4_fct (dsigmoid (1 * 4) * 4) 1 ∧
    sigmoid4_grad 1 ≠ dsigmoid (1 * 4) * 4 := by
  constructor
  · exact sigmoid4_fct_hasDerivAt 1
  · simp only [sigmoid4_grad, one_mul]
    intro h
    exact dsigmoid_one_ne_dsigmoid_four (by linarith)

/-! ### C8: activation lookup tables succeed exactly on the recognized kinds -/

/-- C8: for every string that is not a recognized activation kind, both the
forward-function lookup and the gradient-function lookup fail with an
error, and for every recognized kind both lookups succeed: the success of
either table is exactly membership in the recognized set (hence an unknown
kind is a construction-time error — `_set_fcts` performs both lookups —
and never a silent default). -/
theorem activation_lookup_ok_iff_recognized (a : String) :
    (exceptIsOk (get_activation_function a) = true ↔ recognized_activation a) ∧
    (exceptIsOk (get_activation_gradient_function a) = true ↔ recognized_activation a) := by
  constructor
  · simp only [get_activation_function, recognized_activation, List.mem_cons]
    split_ifs <;> simp_all [exceptIsOk]
    tauto
  · simp only [get_activation_gradient_function, recognized_activation, List.mem_cons]
    split_ifs <;> simp_all [exceptIsOk]
    tauto

/-! ### C10: the composed gradient entry point rejects batched input -/

/-- C10: for every trainable (the `_TrainingAPI` capability record is how
both a unit and a network expose `fill_cache` / `dlossds` / `dlossdw` /
`gradient_backward` to the shared `gradient` implementation) and every
target `y`, `gradient` applied to an input whose rank is not 1 (a 2-D
batch) raises the `ValueError` before calling any of the record's methods,
so batched gradient computation through this entry point is impossible. -/
theorem gradient_rejects_batched_input {κ γ : Type} (api : TrainingAPI κ γ)
    (m : List (List ℚ)) (y : Arr) (inputs : Bool) :
    TrainingAPI.gradient api (Arr.mat m) y inputs =
      Except.error "X must a vector of one dimension." := rfl

/-! ### C3: append with a mismatched input-slot count fails without mutating -/

/-- C3: for every network and every unit whose expected input width differs
from the number of supplied input slots, `append` raises the dimension
mismatch error and leaves the graph unchanged: the state returned by the
call is the input state, so the node count, the `size_` value, the
placement metadata and the flattened weight vector are all unchanged
(in the source the validation precedes every mutation). -/
theorem append_dimension_mismatch_leaves_net_unchanged
    (net : NeuralTreeNet) (node : NeuralTreeNode) (inputs : List Nat)
    (h : inputWidth node.coef ≠ inputs.length) :
    (net.append node inputs).2 =
      some "Dimension mismatch between weights and inputs." ∧
    (net.append node inputs).1 = net ∧
    (net.append node inputs).1.nodes.length = net.nodes.length ∧
    (net.append node inputs).1.size_ = net.size_ ∧
    (net.append node inputs).1.nodes_attr = net.nodes_attr ∧
    (net.append node inputs).1.training_weights = net.training_weights := by
  cases hc : node.coef with
  | one l =>
      simp only [NeuralTreeNet.append, hc]
      rw [if_pos (by simpa [inputWidth, hc] using h)]
      simp
  | two rows =>
      simp only [NeuralTreeNet.append, hc]
      rw [if_pos (by simpa [inputWidth, hc] using h)]
      simp

/-- Witness for C3: a unit expecting two inputs appended on a single slot
fails and leaves the empty 2-dimensional network unchanged. -/
theorem append_dimension_mismatch_witness :
    inputWidth (mkNode1 [1, 1] 0 "identity" none).coef ≠ [0].length ∧
    ((mkEmpty 2).append (mkNode1 [1, 1] 0 "identity" none) [0]).2 =
      some "Dimension mismatch between weights and inputs." ∧
    ((mkEmpty 2).append (mkNode1 [1, 1] 0 "identity" none) [0]).1 = mkEmpty 2 :=
  ⟨by decide,
   (append_dimension_mismatch_leaves_net_unchanged (mkEmpty 2)
     (mkNode1 [1, 1] 0 "identity" none) [0] (by decide)).1,
   (append_dimension_mismatch_leaves_net_unchanged (mkEmpty 2)
     (mkNode1 [1, 1] 0 "identity" none) [0] (by decide)).2.1⟩

/-! ### C2: graph-level output-unit resolution -/

/-- C2: the claim states that `loss` / `dlossds` / `dlossdw` locate the
unique unit owning the final `nb_last` output slots and delegate to it.
The code instead keys the slot-indexed `output_to_node_` map with *node
identifiers* (`output_to_node_[self.nodes[i].nodeid]` and finally
`output_to_node_[len(self.nodes) - 1]`).  On the 1-dimensional network
with two chained identity units, `_get_output_node_attr(1)` therefore
returns the *first* unit (the owner of slot `1 = len(nodes) - 1`, with
`nodeid = 0` and output slot `1`), although the unique owner of the final
output slot `size_ - 1 = 2` is the second unit (position `1`): the three
delegating operations hand the loss to the wrong unit. -/
theorem get_output_node_attr_returns_wrong_unit :
    NeuralTreeNet.get_output_node_attr chainNet 1 =
      Except.ok
        ({ coef := Coef.one [0, 1], activation := "identity", nodeid := 0, tag := none },
         { inputs := [0], output := Output.single 1, coef_size := 2, first_coef := 0 }) ∧
    lookupAssoc chainNet.output_to_node_ ((chainNet.size_ : Int) - 1) = some 1 ∧
    chainNet.nodes.length = 2 ∧ chainNet.size_ = 3 := by decide

/-! ### C6: forward evaluation of the end-to-end scenario network -/

/-- C6: `_predict_one` allocates a `size_`-length state buffer, seeds
slots `0 .. dim-1` with the sample and evaluates every unit in append
order; on the network over a 2-dimensional input holding one identity unit
with weights `[1, 1]` and bias `0` appended on the two input slots,
applied to `[1, 2]`, the first two slots of the returned state equal the
input unchanged and the unit's output slot holds `1*1 + 2*1 + 0 = 3`. -/
theorem predict_one_identity_passthrough :
    NeuralTreeNet.predict_one demoNet2 [1, 2] = some [1, 2, 3] ∧
    demoNet2.size_ = 3 ∧ demoNet2.dim = 2 ∧ demoNet2.nodes.length = 1 := by
  refine ⟨?_, by decide, by decide, by decide⟩
  norm_num [demoNet2, demoIdentityNode, mkNode1, mkEmpty, NeuralTreeNet.append,
    NeuralTreeNet.predict_one, predictOneGo, NeuralTreeNode.predict, writeOutput,
    get_activation_function_q, dot, firstCoefNext, setAssoc, List.mapM, List.mapM.loop]

/-! ### C7: structural equality of units -/

/-- Counterexample to C7: the claim states that for every two units,
single- or multi-output, `__eq__` returns true iff the coefficient arrays
are equal elementwise and the activation kinds match.  For a multi-output
unit compared with itself — equal coefficients, equal activation — the
comparison raises the numpy ambiguous-truth-value `ValueError` instead of
returning true: iterating a 2-D `coef` yields rows, so each
`xy[0] != xy[1]` is a boolean *array*, on which Python's `any` chokes. -/
theorem eq_on_multi_output_unit_raises :
    NeuralTreeNode.eq multiNode multiNode ≠ Except.ok true ∧
    NeuralTreeNode.eq multiNode multiNode =
      Except.error "ValueError: ambiguous truth value of an array" ∧
    multiNode.coef = multiNode.coef ∧ multiNode.activation = multiNode.activation := by
  refine ⟨by decide, by decide, rfl, rfl⟩

lemma anyExcept_map_ok (l : List α) (f : α → Bool) :
    anyExcept (l.map (fun x => Except.ok (f x))) = Except.ok (l.any f) := by
  induction l with
  | nil => rfl
  | cons x xs ih =>
      simp only [List.map_cons, anyExcept, List.any_cons, Bind.bind, Except.bind]
      cases hx : f x
      · simpa [hx] using ih
      · simp [hx, pure, Except.pure]

lemma zip_all_eq_iff (l1 l2 : List ℚ) (h : l1.length = l2.length) :
    ((l1.zip l2).any (fun p => decide (p.1 ≠ p.2)) = false) ↔ l1 = l2 := by
  induction l1 generalizing l2 with
  | nil =>
      cases l2 with
      | nil => simp
      | cons b bs => simp at h
  | cons a as ih =>
      cases l2 with
      | nil => simp at h
      | cons b bs =>
          simp only [List.length_cons, Nat.succ_inj] at h
          simp only [List.zip_cons_cons, List.any_cons, Bool.or_eq_false_iff,
            List.cons.injEq, decide_eq_false_iff_not, not_not]
          rw [ih bs h]

/-- C7 amended: for every two *single-output* units, `__eq__` returns true
iff the coefficient arrays are equal elementwise and the activation kinds
match — the node identifiers and the tags play no role (they are
universally quantified here and absent from the right-hand side).  The
restriction to single-output units is forced by the counterexample: on
multi-output units the comparison raises instead of returning. -/
theorem eq_single_output_iff (l1 l2 : List ℚ) (a1 a2 : String)
    (i1 i2 : Int) (t1 t2 : Option String) :
    NeuralTreeNode.eq
        { coef := .one l1, activation := a1, nodeid := i1, tag := t1 }
        { coef := .one l2, activation := a2, nodeid := i2, tag := t2 } =
      Except.ok true ↔ (l1 = l2 ∧ a1 = a2) := by
  simp only [NeuralTreeNode.eq, coefShape, coefNeTests]
  by_cases hlen : l1.length = l2.length
  · rw [if_neg (by simp [hlen])]
    rw [show (l1.zip l2).map (fun p => Except.ok (decide (p.1 ≠ p.2))) =
        (l1.zip l2).map (fun p => Except.ok ((fun q => decide (q.1 ≠ q.2)) p)) from rfl]
    rw [anyExcept_map_ok]
    simp only [Bind.bind, Except.bind]
    cases hany : (l1.zip l2).any (fun p => decide (p.1 ≠ p.2)) with
    | true =>
        have hne : ¬l1 = l2 := by
          intro he
          rw [← zip_all_eq_iff l1 l2 hlen] at he
          rw [he] at hany
          exact Bool.false_ne_true hany
        simp [hne, pure, Except.pure]
    | false =>
        have heq : l1 = l2 := (zip_all_eq_iff l1 l2 hlen).mp hany
        by_cases hact : a1 = a2
        · simp [heq, hact, pure, Except.pure]
        · simp [heq, hact, pure, Except.pure]
  · rw [if_pos (by simp [hlen])]
    constructor
    · intro he; exact absurd he (by simp)
    · intro he
      exact absurd (congrArg List.length he.1) hlen

/-! ### C4: append-only topology -/

/-- Counterexample to C4: the claim states that `append` is the only
operation mutating graph topology — no unit is ever removed — and that
every reachable network's units reference only already-produced slots.
Both parts fail: `clear` removes all previously appended units (the demo
network holds one unit before and none after), and `append` validates only
the *count* of the supplied input slots, so a unit can be appended whose
inputs `[5, 7]` reference slots that no external input (the network has
`size_ = 2`, slots `0` and `1`) and no earlier unit produces. -/
theorem clear_removes_units_and_append_does_not_validate_slots :
    ((NeuralTreeNet.clear demoNet2).nodes.length = 0 ∧ demoNet2.nodes.length = 1) ∧
    (((mkEmpty 2).append (mkNode1 [1, 1] 0 "identity" none) [5, 7]).2 = none ∧
     ((mkEmpty 2).append (mkNode1 [1, 1] 0 "identity" none) [5, 7]).1.nodes_attr.map
        NodeAttr.inputs = [[5, 7]] ∧
     (mkEmpty 2).size_ = 2) := by decide

/-- C4 amended: `clear` also mutates graph topology (it removes every
unit), and `append` checks only the input-slot *count*, not that the slot
indices refer to existing slots; what does hold is that `append` never
removes or reorders previously appended units: a successful `append`
leaves every earlier unit and its placement metadata unchanged and adds
exactly one unit (with its metadata) at the end. -/
theorem append_only_adds_at_the_end (net : NeuralTreeNet) (node : NeuralTreeNode)
    (inputs : List Nat) (h : (net.append node inputs).2 = none) :
    ∃ nd a, (net.append node inputs).1.nodes = net.nodes ++ [nd] ∧
      (net.append node inputs).1.nodes_attr = net.nodes_attr ++ [a] ∧
      nd.coef = node.coef ∧ nd.activation = node.activation ∧
      a.inputs = inputs := by
  cases hc : node.coef with
  | one l =>
      by_cases hw : l.length - 1 ≠ inputs.length
      · exfalso
        simp only [NeuralTreeNet.append, hc, if_pos hw] at h
        exact Option.noConfusion h
      · refine ⟨{ node with nodeid := (net.nodes.length : Int) },
          { inputs := inputs, output := .single net.size_,
            coef_size := l.length, first_coef := firstCoefNext net }, ?_, ?_, ?_, ?_, rfl⟩
        · simp [NeuralTreeNet.append, hc, if_neg hw]
        · simp [NeuralTreeNet.append, hc, if_neg hw]
        · simp [hc]
        · rfl
  | two rows =>
      by_cases hw : (rows.headD []).length - 1 ≠ inputs.length
      · exfalso
        simp only [NeuralTreeNet.append, hc, if_pos hw] at h
        exact Option.noConfusion h
      · rw [not_not] at hw
        refine ⟨{ node with nodeid := (net.nodes.length : Int) },
          { inputs := inputs, output := .multi (List.range' net.size_ rows.length),
            coef_size := (rows.map List.length).sum,
            first_coef := firstCoefNext net }, ?_, ?_, ?_, ?_, rfl⟩
        · simp only [NeuralTreeNet.append, hc]
          rw [if_neg (by simpa using hw)]
        · simp only [NeuralTreeNet.append, hc]
          rw [if_neg (by simpa using hw)]
        · simp [hc]
        · rfl

/-- Witness for C4's amended theorem: a successful concrete `append` on the
empty 2-dimensional network adds exactly one unit at the end. -/
theorem append_only_adds_at_the_end_witness :
    ((mkEmpty 2).append demoIdentityNode [0, 1]).2 = none ∧
    ∃ nd a, ((mkEmpty 2).append demoIdentityNode [0, 1]).1.nodes =
        (mkEmpty 2).nodes ++ [nd] ∧
      ((mkEmpty 2).append demoIdentityNode [0, 1]).1.nodes_attr =
        (mkEmpty 2).nodes_attr ++ [a] ∧
      nd.coef = demoIdentityNode.coef ∧ nd.activation = demoIdentityNode.activation ∧
      a.inputs = [0, 1] :=
  ⟨by decide, append_only_adds_at_the_end (mkEmpty 2) demoIdentityNode [0, 1] (by decide)⟩

/-! ### C5: training-weight length and replace round-trip -/

lemma flatten_splitByLengths (lens : List Nat) (xs : List ℚ)
    (h : lens.sum = xs.length) : (splitByLengths xs lens).flatten = xs := by
  induction lens generalizing xs with
  | nil =>
      simp only [List.sum_nil] at h
      simp [splitByLengths, (List.eq_nil_of_length_eq_zero h.symm)]
  | cons n ns ih =>
      simp only [List.sum_cons] at h
      have hn : n ≤ xs.length := by omega
      simp only [splitByLengths, List.flatten_cons]
      rw [ih (xs.drop n) (by simp; omega)]
      exact List.take_append_drop n xs

lemma updateCoefReplace_spec (c : Coef) (xs : List ℚ) (h : xs.length = coefSize c) :
    ∃ c2, updateCoefReplace c xs = some c2 ∧ coefRavel c2 = xs := by
  cases c with
  | one l =>
      simp only [coefSize] at h
      exact ⟨.one xs, by simp [updateCoefReplace, h], rfl⟩
  | two rows =>
      simp only [coefSize] at h
      refine ⟨.two (splitByLengths xs (rows.map List.length)),
        by simp [updateCoefReplace, h], ?_⟩
      simp only [coefRavel]
      exact flatten_splitByLengths (rows.map List.length) xs h.symm

lemma updateNodes_replace_roundtrip (ns : List NeuralTreeNode) (v : List ℚ)
    (h : v.length = (ns.map (fun n => coefSize n.coef)).sum) :
    ∃ ns2, updateNodes ns v false = some ns2 ∧
      (ns2.map (fun n => coefRavel n.coef)).flatten = v := by
  induction ns generalizing v with
  | nil =>
      simp only [List.map_nil, List.sum_nil] at h
      exact ⟨[], rfl, by simp [List.eq_nil_of_length_eq_zero h]⟩
  | cons n ns ih =>
      simp only [List.map_cons, List.sum_cons] at h
      have htake : (v.take (coefSize n.coef)).length = coefSize n.coef := by
        simp only [List.length_take]
        omega
      obtain ⟨c2, hc2, hrav⟩ := updateCoefReplace_spec n.coef
        (v.take (coefSize n.coef)) htake
      have hdrop : (v.drop (coefSize n.coef)).length =
          (ns.map (fun n => coefSize n.coef)).sum := by
        simp only [List.length_drop]
        omega
      obtain ⟨ns2, hns2, hflat⟩ := ih (v.drop (coefSize n.coef)) hdrop
      refine ⟨{ n with coef := c2 } :: ns2, ?_, ?_⟩
      · simp only [updateNodes, Bool.false_eq_true, if_neg, ite_false, hc2,
          Option.bind_eq_bind, Option.some_bind, hns2]
      · simp only [List.map_cons, List.flatten_cons, hrav, hflat]
        exact List.take_append_drop (coefSize n.coef) v

lemma coefRavel_length (c : Coef) : (coefRavel c).length = coefSize c := by
  cases c with
  | one l => rfl
  | two rows => simp [coefRavel, coefSize]

/-- C5: for every network, the length of `training_weights` equals the sum
over all appended units of their coefficient array sizes, and for every
vector `v` of that length, `update_training_weights(v, add=False)` followed
by reading `training_weights` returns exactly `v` (replace-semantics
round-trip). -/
theorem training_weights_length_and_replace_roundtrip (net : NeuralTreeNet)
    (v : List ℚ) (h : v.length = netShape net) :
    net.training_weights.length = netShape net ∧
    ∃ net2, net.update_training_weights v false = some net2 ∧
      net2.training_weights = v := by
  constructor
  · simp only [NeuralTreeNet.training_weights, netShape, List.length_flatten,
      List.map_map]
    induction net.nodes with
    | nil => rfl
    | cons n ns ih => simp [coefRavel_length, ih]
  · obtain ⟨ns2, hns2, hflat⟩ := updateNodes_replace_roundtrip net.nodes v
      (by simpa [netShape] using h)
    exact ⟨{ net with nodes := ns2 },
      by simp [NeuralTreeNet.update_training_weights, hns2],
      by simpa [NeuralTreeNet.training_weights] using hflat⟩

/-- Witness for C5: on the concrete one-unit network (3 coefficients),
replacing the weights with `[4, 5, 6]` and reading them back returns
exactly `[4, 5, 6]`. -/
theorem training_weights_roundtrip_witness :
    ([4, 5, 6] : List ℚ).length = netShape demoNet2 ∧
    (demoNet2.training_weights.length = netShape demoNet2 ∧
     ∃ net2, demoNet2.update_training_weights [4, 5, 6] false = some net2 ∧
       net2.training_weights = [4, 5, 6]) :=
  ⟨by decide,
   training_weights_length_and_replace_roundtrip demoNet2 [4, 5, 6] (by decide)⟩

/-! ### C9: the tree compiler's combination units -/

/-- A successful single-output `append` written out explicitly (the guard
holds whenever the weight count matches the input-slot count). -/
lemma append_one_ok (net : NeuralTreeNet) (b : ℚ) (w : List ℚ) (act : String)
    (nid : Int) (tg : Option String) (inputs : List Nat)
    (h : w.length = inputs.length) :
    net.append { coef := .one (b :: w), activation := act, nodeid := nid, tag := tg }
        inputs =
    ({ dim := net.dim,
       nodes := net.nodes ++
         [{ coef := .one (b :: w), activation := act,
            nodeid := (net.nodes.length : Int), tag := tg }],
       nodes_attr := net.nodes_attr ++
         [{ inputs := inputs, output := .single net.size_,
            coef_size := w.length + 1, first_coef := firstCoefNext net }],
       size_ := net.size_ + 1,
       output_to_node_ := setAssoc net.output_to_node_ (net.size_ : Int) net.nodes.length,
       input_to_node_ := inputs.foldl (fun m j => setAssoc m (j : Int) net.nodes.length)
         net.input_to_node_ }, none) := by
  simp only [NeuralTreeNet.append]
  rw [if_neg (by simp [h])]
  rfl

lemma appendE_of_append_ok {net net2 : NeuralTreeNet} {node : NeuralTreeNode}
    {inputs : List Nat} (h : net.append node inputs = (net2, none)) :
    appendE net node inputs = .ok net2 := by
  simp [appendE, h]

lemma appendE_one_ok (net : NeuralTreeNet) (b : ℚ) (w : List ℚ) (act : String)
    (nid : Int) (tg : Option String) (inputs : List Nat)
    (h : w.length = inputs.length) :
    appendE net { coef := .one (b :: w), activation := act, nodeid := nid, tag := tg }
        inputs =
    Except.ok
      { dim := net.dim,
        nodes := net.nodes ++
          [{ coef := .one (b :: w), activation := act,
             nodeid := (net.nodes.length : Int), tag := tg }],
        nodes_attr := net.nodes_attr ++
          [{ inputs := inputs, output := .single net.size_,
             coef_size := w.length + 1, first_coef := firstCoefNext net }],
        size_ := net.size_ + 1,
        output_to_node_ := setAssoc net.output_to_node_ (net.size_ : Int) net.nodes.length,
        input_to_node_ := inputs.foldl (fun m j => setAssoc m (j : Int) net.nodes.length)
          net.input_to_node_ } :=
  appendE_of_append_ok (append_one_ok net b w act nid tg inputs h)

lemma lookupAssoc_setAssoc_self {α : Type} (m : List (Int × α)) (key : Int) (v : α) :
    lookupAssoc (setAssoc m key v) key = some v := by
  induction m with
  | nil => simp [setAssoc, lookupAssoc]
  | cons p rest ih =>
      by_cases hk : p.1 = key
      · simp [setAssoc, hk, lookupAssoc]
      · simp [setAssoc, hk, lookupAssoc, ih]

lemma lookupAssoc_setAssoc_ne {α : Type} (m : List (Int × α)) (k1 k2 : Int) (v : α)
    (h : k2 ≠ k1) : lookupAssoc (setAssoc m k1 v) k2 = lookupAssoc m k2 := by
  induction m with
  | nil => simp [setAssoc, lookupAssoc, Ne.symm h]
  | cons p rest ih =>
      by_cases hk : p.1 = k1
      · simp [setAssoc, hk, lookupAssoc, h, Ne.symm h]
      · simp only [setAssoc, if_neg hk, lookupAssoc]
        by_cases hk2 : p.1 = k2
        · simp [hk2]
        · simp [hk2, ih]

/-- C9: one step of the `create_from_tree` loop.  For every tree, steepness
`k` and compiler state, at an internal tree node `i`
(`children_left[i] != children_right[i]`) that has a recorded predecessor,
`processNode` appends — right after the threshold unit — exactly two
2-input sigmoid-steepened (`sigmoid4`) combination units, both taking the
predecessor unit's output slot `o1` and the threshold unit's output slot
(`st.root.size_`, the slot created for the threshold unit) as inputs: an
AND-unit with weights `[k, k]` and bias `-1.5 k`, registered in the
predecessor map for the node's left child, and a DIFFERENCE-unit with
weights `[k, -k]` and bias `-0.25 k`, registered for the right child
(coefficient layout: `[bias, w1, w2]`). -/
theorem tree_compiler_combination_units
    (tree : TreeSource) (k : ℚ) (st : CompilerState) (i : Nat)
    (l r : Int) (f : Nat) (th : ℚ) (predIdx : Nat) (attr1 : NodeAttr) (o1 : Nat)
    (h1 : tree.children_left[i]? = some l)
    (h2 : tree.children_right[i]? = some r)
    (h3 : l ≠ r)
    (h4 : tree.feature[i]? = some f)
    (h5 : tree.threshold[i]? = some th)
    (h6 : lookupAssoc st.predecessor (i : Int) = some predIdx)
    (h7 : st.root.nodes.length = st.root.nodes_attr.length)
    (h8 : st.root.nodes_attr[predIdx]? = some attr1)
    (h9 : attr1.output = Output.single o1) :
    ∃ st2, processNode tree k st i = Except.ok st2 ∧
      st2.root.nodes = st.root.nodes ++
        [{ coef := .one (k * th :: (List.range tree.max_features).map
             (fun j => if j = f then -k else 0)),
           activation := "sigmoid4", nodeid := (st.root.nodes.length : Int),
           tag := some ("N" ++ toString i ++ "-th") },
         { coef := .one [-(k * 1.5), k, k], activation := "sigmoid4",
           nodeid := ((st.root.nodes.length + 1 : Nat) : Int),
           tag := some ("N" ++ toString i ++ "-T") },
         { coef := .one [-(k * 0.25), k, -k], activation := "sigmoid4",
           nodeid := ((st.root.nodes.length + 2 : Nat) : Int),
           tag := some ("N" ++ toString i ++ "-F") }] ∧
      st2.root.nodes_attr.map NodeAttr.inputs =
        st.root.nodes_attr.map NodeAttr.inputs ++
          [List.range tree.max_features, [o1, st.root.size_], [o1, st.root.size_]] ∧
      st2.root.nodes_attr.map NodeAttr.output =
        st.root.nodes_attr.map NodeAttr.output ++
          [Output.single st.root.size_, Output.single (st.root.size_ + 1),
           Output.single (st.root.size_ + 2)] ∧
      lookupAssoc st2.predecessor l = some (st.root.nodes.length + 1) ∧
      lookupAssoc st2.predecessor r = some (st.root.nodes.length + 2) ∧
      st2.outputs = st.outputs := by
  have hlt : predIdx < st.root.nodes_attr.length := (List.getElem?_eq_some.mp h8).1
  have hA1 : (st.root.nodes_attr ++
      [{ inputs := List.range tree.max_features, output := Output.single st.root.size_,
         coef_size := tree.max_features + 1,
         first_coef := firstCoefNext st.root }])[predIdx]? = some attr1 := by
    rw [List.getElem?_append, if_pos hlt]; exact h8
  have hA2 : (st.root.nodes_attr ++
      [{ inputs := List.range tree.max_features, output := Output.single st.root.size_,
         coef_size := tree.max_features + 1,
         first_coef := firstCoefNext st.root }])[st.root.nodes.length]? =
      some { inputs := List.range tree.max_features,
             output := Output.single st.root.size_,
             coef_size := tree.max_features + 1,
             first_coef := firstCoefNext st.root } := by
    rw [h7]; simp
  simp only [processNode, h1, h2, h4, h5, h6, exceptOfOption, mkNode1, Bind.bind,
    Except.bind, if_pos h3, appendE_one_ok, hA1, hA2, h9, singleOutputSlot,
    pure, Except.pure, List.length_map, List.length_range, List.length_cons,
    List.length_nil]
  refine ⟨_, rfl, ?_, ?_, ?_, ?_, ?_, rfl⟩
  · simp
  · simp
  · simp
  · rw [lookupAssoc_setAssoc_ne _ _ _ _ h3, lookupAssoc_setAssoc_self]
    simp
  · rw [lookupAssoc_setAssoc_self]
    simp

/-- The decision tree used by the C9 witness: tree node 1 is internal
(children 3 and 4), splits on feature 0 at threshold 3. -/
def demoTree : TreeSource :=
  { n_classes := 2, node_count := 2, children_left := [1, 3],
    children_right := [2, 4], feature := [0, 0], threshold := [2, 3],
    value := [(0, 0), (0, 0)], max_features := 1 }

/-- The compiler state used by the C9 witness: a network holding one unit
(the recorded predecessor of tree node 1) and empty class buckets. -/
def demoCompilerState : CompilerState :=
  { root := ((mkEmpty 1).append (mkNode1 [-1] 1 "identity" none) [0]).1,
    predecessor := [(1, 0)], outputs := [(0, []), (1, [])] }

/-- The placement metadata of the recorded predecessor unit in
`demoCompilerState` (output slot 1). -/
def demoPredAttr : NodeAttr :=
  { inputs := [0], output := Output.single 1, coef_size := 2, first_coef := 0 }

/-- Witness for C9: processing internal tree node 1 (which has recorded
predecessor unit 0 with output slot 1) with `k = 1` appends the threshold
unit and the two combination units and registers the children's
predecessors. -/
theorem tree_compiler_combination_units_witness :
    (demoTree.children_left[1]? = some 3 ∧ (3 : Int) ≠ 4 ∧
     lookupAssoc demoCompilerState.predecessor (1 : Int) = some 0 ∧
     demoCompilerState.root.nodes_attr[0]? = some demoPredAttr ∧
     demoPredAttr.output = Output.single 1) ∧
    (∃ st2, processNode demoTree 1 demoCompilerState 1 = Except.ok st2 ∧
      st2.root.nodes = demoCompilerState.root.nodes ++
        [{ coef := .one ((1 : ℚ) * 3 :: (List.range demoTree.max_features).map
             (fun j => if j = 0 then -(1 : ℚ) else 0)),
           activation := "sigmoid4",
           nodeid := (demoCompilerState.root.nodes.length : Int),
           tag := some ("N" ++ toString 1 ++ "-th") },
         { coef := .one [-((1 : ℚ) * 1.5), 1, 1], activation := "sigmoid4",
           nodeid := ((demoCompilerState.root.nodes.length + 1 : Nat) : Int),
           tag := some ("N" ++ toString 1 ++ "-T") },
         { coef := .one [-((1 : ℚ) * 0.25), 1, -1], activation := "sigmoid4",
           nodeid := ((demoCompilerState.root.nodes.length + 2 : Nat) : Int),
           tag := some ("N" ++ toString 1 ++ "-F") }] ∧
      st2.root.nodes_attr.map NodeAttr.inputs =
        demoCompilerState.root.nodes_attr.map NodeAttr.inputs ++
          [List.range demoTree.max_features,
           [1, demoCompilerState.root.size_], [1, demoCompilerState.root.size_]] ∧
      st2.root.nodes_attr.map NodeAttr.output =
        demoCompilerState.root.nodes_attr.map NodeAttr.output ++
          [Output.single demoCompilerState.root.size_,
           Output.single (demoCompilerState.root.size_ + 1),
           Output.single (demoCompilerState.root.size_ + 2)] ∧
      lookupAssoc st2.predecessor 3 =
        some (demoCompilerState.root.nodes.length + 1) ∧
      lookupAssoc st2.predecessor 4 =
        some (demoCompilerState.root.nodes.length + 2) ∧
      st2.outputs = demoCompilerState.outputs) :=
  ⟨⟨by decide, by decide, by decide, by decide, by decide⟩,
   tree_compiler_combination_units demoTree 1 demoCompilerState 1 3 4 0 3 0
     demoPredAttr 1 (by decide) (by decide) (by decide) (by decide) (by decide)
     (by decide) (by decide) (by decide) (by decide)⟩
